import Mathlib

/-!
# Verification of the ESP32-S3 SD/TF photograph sketch

Shallow embedding of `ESP32-S3-WROOM-SDTF-Photograph.ino`:

* `takePhoto` models the capture-and-store routine (source lines 78-97).
  The hardware capabilities (camera, SD card, clock) are abstracted by a
  `PhotoEnv` record giving the response of each external call; the routine
  is embedded as a pure function from that environment to the outcome and
  the ordered trace of capability calls it performs.
* `setupRun` models `setup()` (lines 33-50).
* `loopStep` / `loopRun` model the debouncing poll loop `loop()`
  (lines 53-75), with time in `millis()` units; one plain poll iteration
  advances time by one unit (the loop body has no delay, so one unit is
  the sampling period), `delay(n)` advances it by `n`, and the capture
  itself is modelled as instantaneous.
* `sessionIdxs` models the per-session sequence of filename indices
  (lines 83-85) across consecutive captures.

All definitions are executable, so concrete runs are settled by `decide`.
-/

set_option maxRecDepth 4000

namespace Photo

/-- Constant `DEBOUNCE_MS` from the sketch (line 18). -/
def DEBOUNCE_MS : Nat := 40

/-- Constant `LED_PIN` from the sketch (line 19): no indicator line configured. -/
def LED_PIN : Int := -1

/-- One capability call observable in a run of `takePhoto`, in the order
the sketch performs them. -/
inductive Ev where
  | ledOn : Ev
  | ledOff : Ev
  | fbGet (ok : Bool) : Ev
  | fbReturn : Ev
  | readNum (dir : String) : Ev
  | openFile (path : String) (ok : Bool) : Ev
  | writeBytes (payload : List Nat) (ok : Bool) : Ev
  | flush (ok : Bool) : Ev
  | close : Ev
  | serial (msg : String) : Ev
deriving DecidableEq

/-- Outcome of one capture, read off from the control path taken by
`takePhoto` (the sketch reports it on the serial log). -/
inductive Status where
  | success (path : String) : Status
  | sensorFault : Status
  | storageFault : Status
deriving DecidableEq

/-- Responses of the external capabilities during one `takePhoto` call:
the frame returned by `esp_camera_fb_get` (payload bytes, `none` on
failure), the `readFileNum` result (negative = error, as in the sketch),
the `millis()` value read on the fallback path, whether `SD_MMC.open`
yields a valid file, and the outcomes of `write` and `flush` (which the
sketch does not inspect). -/
structure PhotoEnv where
  frame : Option (List Nat)
  fileNum : Int
  clock : Nat
  openOk : Bool
  writeOk : Bool
  flushOk : Bool

/-- Helper `ledOn()` (line 26): drives the line only when `LED_PIN >= 0`. -/
def ledOnEv (ledPin : Int) : List Ev :=
  if 0 ≤ ledPin then [Ev.ledOn] else []

/-- Helper `ledOff()` (line 27): drives the line only when `LED_PIN >= 0`. -/
def ledOffEv (ledPin : Int) : List Ev :=
  if 0 ≤ ledPin then [Ev.ledOff] else []

/-- Two's-complement conversion of a `uint32_t` value into C `int`, as in
`int idx = millis()` (line 84). -/
def intOfUInt32 (c : Nat) : Int :=
  if c % 4294967296 < 2147483648 then ((c % 4294967296 : Nat) : Int)
  else ((c % 4294967296 : Nat) : Int) - 4294967296

/-- Index selection of lines 83-84: the `readFileNum` result, replaced by
the clock when negative. -/
def chooseIdx (fileNum : Int) (clock : Nat) : Int :=
  if fileNum < 0 then intOfUInt32 clock else fileNum

/-- Decimal digits of `n`, most significant first (`[]` for `0`); the
fuel argument bounds the recursion and `n` itself always suffices. -/
def natDigsAux : Nat → Nat → List Nat
  | 0, _ => []
  | _ + 1, 0 => []
  | fuel + 1, n + 1 => natDigsAux fuel ((n + 1) / 10) ++ [(n + 1) % 10]

/-- Decimal digits of `n`, most significant first (`[]` for `0`). -/
def natDigs (n : Nat) : List Nat := natDigsAux n n

/-- A decimal digit as a character. -/
def digitChr : Nat → Char
  | 0 => '0' | 1 => '1' | 2 => '2' | 3 => '3' | 4 => '4'
  | 5 => '5' | 6 => '6' | 7 => '7' | 8 => '8' | _ => '9'

/-- Decimal rendering of a natural number, as Arduino `String(unsigned)`. -/
def natChars (n : Nat) : List Char :=
  if n = 0 then ['0'] else (natDigs n).map digitChr

/-- Decimal rendering of an `int`, as Arduino `String(int)`. -/
def intChars (i : Int) : List Char :=
  if i < 0 then '-' :: natChars i.natAbs else natChars i.toNat

/-- The target path of line 85: `"/camera/" + String(idx) + ".jpg"`. -/
def pathOf (idx : Int) : String :=
  String.mk ("/camera/".data ++ intChars idx ++ ".jpg".data)

/-- Shallow embedding of `takePhoto()` (sketch lines 78-97).  Returns the
capture outcome together with the ordered trace of capability calls. -/
def takePhoto (ledPin : Int) (env : PhotoEnv) : Status × List Ev :=
  let t0 := ledOnEv ledPin ++ [Ev.fbGet env.frame.isSome]
  match env.frame with
  | none =>
      (Status.sensorFault, t0 ++ [Ev.serial "Capture failed"] ++ ledOffEv ledPin)
  | some fb =>
      let idx := chooseIdx env.fileNum env.clock
      let path := pathOf idx
      let t1 := t0 ++ [Ev.readNum "/camera", Ev.openFile path env.openOk]
      if env.openOk then
        (Status.success path,
          t1 ++ [Ev.writeBytes fb env.writeOk, Ev.flush env.flushOk, Ev.close,
                 Ev.fbReturn, Ev.serial ("Saved: " ++ path)] ++ ledOffEv ledPin)
      else
        (Status.storageFault,
          t1 ++ [Ev.serial "File open failed", Ev.fbReturn] ++ ledOffEv ledPin)

/-- Storage-capability operations among the trace events. -/
def isStorageOp : Ev → Bool
  | Ev.readNum _ => true
  | Ev.openFile _ _ => true
  | Ev.writeBytes _ _ => true
  | Ev.flush _ => true
  | Ev.close => true
  | _ => false

/-- Indicator level after a trace (`true` = busy, `false` = idle); the
indicator starts idle. -/
def ledAfter (trace : List Ev) : Bool :=
  trace.foldl (fun st e =>
    match e with
    | Ev.ledOn => true
    | Ev.ledOff => false
    | _ => st) false

/-- A trace with the indicator events removed: what the sensor and
storage capabilities observe. -/
def eraseLed (trace : List Ev) : List Ev :=
  trace.filter (fun e =>
    match e with
    | Ev.ledOn => false
    | Ev.ledOff => false
    | _ => true)

/-- The success-path trace of `takePhoto`, written out in call order. -/
theorem takePhoto_success_trace (ledPin : Int) (env : PhotoEnv) (fb : List Nat)
    (hf : env.frame = some fb) (ho : env.openOk = true) :
    (takePhoto ledPin env).2 =
      ledOnEv ledPin ++
        [Ev.fbGet true, Ev.readNum "/camera",
         Ev.openFile (pathOf (chooseIdx env.fileNum env.clock)) true,
         Ev.writeBytes fb env.writeOk, Ev.flush env.flushOk, Ev.close,
         Ev.fbReturn,
         Ev.serial ("Saved: " ++ pathOf (chooseIdx env.fileNum env.clock))] ++
      ledOffEv ledPin := by
  simp [takePhoto, hf, ho]

/-- The open-failure trace of `takePhoto`, written out in call order. -/
theorem takePhoto_openFail_trace (ledPin : Int) (env : PhotoEnv) (fb : List Nat)
    (hf : env.frame = some fb) (ho : env.openOk = false) :
    (takePhoto ledPin env).2 =
      ledOnEv ledPin ++
        [Ev.fbGet true, Ev.readNum "/camera",
         Ev.openFile (pathOf (chooseIdx env.fileNum env.clock)) false,
         Ev.serial "File open failed", Ev.fbReturn] ++
      ledOffEv ledPin := by
  simp [takePhoto, hf, ho]

/-- The acquisition-failure trace of `takePhoto`. -/
theorem takePhoto_noFrame_trace (ledPin : Int) (env : PhotoEnv)
    (hf : env.frame = none) :
    (takePhoto ledPin env).2 =
      ledOnEv ledPin ++ [Ev.fbGet false, Ev.serial "Capture failed"] ++
        ledOffEv ledPin := by
  simp [takePhoto, hf]

/-- C1.  In every invocation of `takePhoto` that reaches the write step
(frame acquired and file opened), the full frame payload is written, then
flush is performed, then the file is closed — in this order — and close
happens exactly once, even when the flush (or write) fails: the sketch
never branches between lines 90 and 92. -/
theorem write_then_flush_then_close (ledPin : Int) (env : PhotoEnv)
    (fb : List Nat) (hf : env.frame = some fb) (ho : env.openOk = true) :
    List.Sublist [Ev.writeBytes fb env.writeOk, Ev.flush env.flushOk, Ev.close]
      (takePhoto ledPin env).2 ∧
    (takePhoto ledPin env).2.count Ev.close = 1 := by
  rw [takePhoto_success_trace ledPin env fb hf ho]
  constructor
  · have h1 : List.Sublist [Ev.writeBytes fb env.writeOk, Ev.flush env.flushOk, Ev.close]
        ([Ev.writeBytes fb env.writeOk, Ev.flush env.flushOk, Ev.close] ++
          [Ev.fbReturn,
           Ev.serial ("Saved: " ++ pathOf (chooseIdx env.fileNum env.clock))]) :=
      List.sublist_append_left _ _
    have h2 := ((h1.cons (Ev.openFile (pathOf (chooseIdx env.fileNum env.clock)) true)).cons
        (Ev.readNum "/camera")).cons (Ev.fbGet true)
    have h3 := h2.trans
      (List.sublist_append_left
        ([Ev.fbGet true, Ev.readNum "/camera",
          Ev.openFile (pathOf (chooseIdx env.fileNum env.clock)) true,
          Ev.writeBytes fb env.writeOk, Ev.flush env.flushOk, Ev.close,
          Ev.fbReturn,
          Ev.serial ("Saved: " ++ pathOf (chooseIdx env.fileNum env.clock))])
        (ledOffEv ledPin))
    rw [List.append_assoc]
    exact h3.trans (List.sublist_append_right _ _)
  · rcases le_or_lt 0 ledPin with hp | hp <;>
      simp [ledOnEv, ledOffEv, hp, not_le.mpr, List.count_append, List.count_cons]

/-- Witness for `write_then_flush_then_close` at a concrete environment
(flush failing, to exercise the close-never-skipped part). -/
theorem write_then_flush_then_close_app :
    List.Sublist [Ev.writeBytes [9, 9] true, Ev.flush false, Ev.close]
      (takePhoto (-1) ⟨some [9, 9], 4, 0, true, true, false⟩).2 ∧
    (takePhoto (-1) ⟨some [9, 9], 4, 0, true, true, false⟩).2.count Ev.close = 1 :=
  write_then_flush_then_close (-1) ⟨some [9, 9], 4, 0, true, true, false⟩ [9, 9]
    rfl rfl

/-- C2.  In every invocation of `takePhoto`, the frame buffer is returned
to the camera capability exactly once when a frame was acquired — on the
success path, on the open-failure path, and regardless of write/flush
outcomes — and zero times when acquisition failed. -/
theorem frame_released_exactly_once (ledPin : Int) (env : PhotoEnv) :
    (takePhoto ledPin env).2.count Ev.fbReturn =
      if env.frame.isSome then 1 else 0 := by
  rcases hf : env.frame with _ | fb <;>
    rcases ho : env.openOk with _ | _ <;>
      rcases le_or_lt 0 ledPin with hp | hp <;>
        simp [takePhoto, hf, ho, ledOnEv, ledOffEv, hp, not_le.mpr,
          List.count_append, List.count_cons]

/-- C7.  When frame acquisition fails, `takePhoto` performs no storage
operation at all (no count query, no open, no write, no flush, no close —
hence no file is created), the indicator ends idle, and the outcome is
`sensorFault`. -/
theorem sensor_fault_no_storage (ledPin : Int) (env : PhotoEnv)
    (hf : env.frame = none) :
    (takePhoto ledPin env).1 = Status.sensorFault ∧
    (takePhoto ledPin env).2.filter isStorageOp = [] ∧
    ledAfter (takePhoto ledPin env).2 = false := by
  refine ⟨by simp [takePhoto, hf], ?_, ?_⟩ <;>
    rw [show (takePhoto ledPin env).2 = _ from takePhoto_noFrame_trace ledPin env hf] <;>
    rcases le_or_lt 0 ledPin with hp | hp <;>
    simp [ledOnEv, ledOffEv, hp, not_le.mpr, isStorageOp, ledAfter]

/-- Witness for `sensor_fault_no_storage` at a concrete environment. -/
theorem sensor_fault_no_storage_app :
    (takePhoto (-1) ⟨none, 4, 7, true, true, true⟩).1 = Status.sensorFault ∧
    (takePhoto (-1) ⟨none, 4, 7, true, true, true⟩).2.filter isStorageOp = [] ∧
    ledAfter (takePhoto (-1) ⟨none, 4, 7, true, true, true⟩).2 = false :=
  sensor_fault_no_storage (-1) ⟨none, 4, 7, true, true, true⟩ rfl

/-- C9.  On the success path the operation order is write, flush, close,
release-frame, and close and release each happen exactly once: the file
handle is closed before the frame buffer is handed back, so the handle is
never still open once the buffer is released. -/
theorem close_before_frame_release (ledPin : Int) (env : PhotoEnv)
    (fb : List Nat) (hf : env.frame = some fb) (ho : env.openOk = true) :
    List.Sublist [Ev.writeBytes fb env.writeOk, Ev.flush env.flushOk, Ev.close,
        Ev.fbReturn]
      (takePhoto ledPin env).2 ∧
    (takePhoto ledPin env).2.count Ev.close = 1 ∧
    (takePhoto ledPin env).2.count Ev.fbReturn = 1 := by
  rw [takePhoto_success_trace ledPin env fb hf ho]
  refine ⟨?_, ?_, ?_⟩
  · have h1 : List.Sublist
        [Ev.writeBytes fb env.writeOk, Ev.flush env.flushOk, Ev.close, Ev.fbReturn]
        ([Ev.writeBytes fb env.writeOk, Ev.flush env.flushOk, Ev.close, Ev.fbReturn] ++
          [Ev.serial ("Saved: " ++ pathOf (chooseIdx env.fileNum env.clock))]) :=
      List.sublist_append_left _ _
    have h2 := ((h1.cons (Ev.openFile (pathOf (chooseIdx env.fileNum env.clock)) true)).cons
        (Ev.readNum "/camera")).cons (Ev.fbGet true)
    have h3 := h2.trans
      (List.sublist_append_left
        ([Ev.fbGet true, Ev.readNum "/camera",
          Ev.openFile (pathOf (chooseIdx env.fileNum env.clock)) true,
          Ev.writeBytes fb env.writeOk, Ev.flush env.flushOk, Ev.close,
          Ev.fbReturn,
          Ev.serial ("Saved: " ++ pathOf (chooseIdx env.fileNum env.clock))])
        (ledOffEv ledPin))
    rw [List.append_assoc]
    exact h3.trans (List.sublist_append_right _ _)
  · rcases le_or_lt 0 ledPin with hp | hp <;>
      simp [ledOnEv, ledOffEv, hp, not_le.mpr, List.count_append, List.count_cons]
  · rcases le_or_lt 0 ledPin with hp | hp <;>
      simp [ledOnEv, ledOffEv, hp, not_le.mpr, List.count_append, List.count_cons]

/-- Witness for `close_before_frame_release` at a concrete environment. -/
theorem close_before_frame_release_app :
    List.Sublist [Ev.writeBytes [3] true, Ev.flush true, Ev.close, Ev.fbReturn]
      (takePhoto (-1) ⟨some [3], 0, 0, true, true, true⟩).2 ∧
    (takePhoto (-1) ⟨some [3], 0, 0, true, true, true⟩).2.count Ev.close = 1 ∧
    (takePhoto (-1) ⟨some [3], 0, 0, true, true, true⟩).2.count Ev.fbReturn = 1 :=
  close_before_frame_release (-1) ⟨some [3], 0, 0, true, true, true⟩ [3] rfl rfl

/-- C10.  The indicator configuration does not interfere with the capture:
for any fixed capability responses, a run with an indicator line
(`ledPin ≥ 0`) and a run without (`LED_PIN = -1`) give the same outcome
and the same capability-visible trace (in particular the same file at the
same path with the same payload). -/
theorem led_noninterference (ledPin : Int) (env : PhotoEnv) :
    (takePhoto ledPin env).1 = (takePhoto LED_PIN env).1 ∧
    eraseLed (takePhoto ledPin env).2 = eraseLed (takePhoto LED_PIN env).2 := by
  rcases hf : env.frame with _ | fb <;>
    rcases ho : env.openOk with _ | _ <;>
      rcases le_or_lt 0 ledPin with hp | hp <;>
        simp [takePhoto, hf, ho, ledOnEv, ledOffEv, hp, not_le.mpr, eraseLed,
          LED_PIN]

/-- C4, counterexample.  A capture whose write fails (`writeOk = false`,
and likewise nothing inspects the flush outcome) is still reported as
`success`: the sketch never checks the return values of `f.write` and
`f.flush` (lines 90-91), so "returns StorageFault iff the open fails or
the write fails" and "a write/flush failure is never reported as Success"
are both false. -/
theorem status_taxonomy_cex :
    (takePhoto (-1) ⟨some [7], 3, 0, true, false, true⟩).1 =
      Status.success "/camera/3.jpg" ∧
    (⟨some [7], 3, 0, true, false, true⟩ : PhotoEnv).writeOk = false := by
  constructor <;> rfl

/-- C4, amended.  `takePhoto` reports `sensorFault` iff acquisition
yields no frame; `storageFault` iff a frame was acquired and the open
failed; and `success path` in every other case — the write and flush
outcomes are never inspected, so a capture whose write or flush fails is
still reported as success. -/
theorem status_taxonomy (ledPin : Int) (env : PhotoEnv) :
    ((takePhoto ledPin env).1 = Status.sensorFault ↔ env.frame = none) ∧
    ((takePhoto ledPin env).1 = Status.storageFault ↔
      (env.frame.isSome = true ∧ env.openOk = false)) ∧
    (env.frame.isSome = true → env.openOk = true →
      (takePhoto ledPin env).1 =
        Status.success (pathOf (chooseIdx env.fileNum env.clock))) := by
  rcases hf : env.frame with _ | fb <;>
    rcases ho : env.openOk with _ | _ <;>
      simp [takePhoto, hf, ho]

/-- Witness for `status_taxonomy` at a concrete environment. -/
theorem status_taxonomy_app :
    (takePhoto (-1) ⟨some [1], 2, 0, true, true, true⟩).1 =
      Status.success (pathOf (chooseIdx 2 0)) :=
  (status_taxonomy (-1) ⟨some [1], 2, 0, true, true, true⟩).2.2 rfl rfl

/-!
## Startup (`setup()`, lines 33-50)

`sdmmcInit`, `createDir` and `readFileNum` live in `sd_read_write.h`,
a file of this repository that is only included from the sketch.
Modelled from the spec: the storage capability's operations
(`countEntries`, `open`, …) report failures as error returns, so
`sdmmcInit` and `createDir` are modelled as calls whose outcome is
recorded but which return to `setup` either way — exactly how the sketch
uses them: both are invoked as plain statements (lines 39-40) and nothing
of their outcome is consulted.  `cameraSetup()` (lines 100-146) returns
`false` iff `esp_camera_init` fails, and `setup` halts in the blink loop
(line 45) exactly when `cameraSetup()` returns `false`.
-/

/-- Outcomes of the external calls made during startup. -/
structure BootEnv where
  sdMountOk : Bool
  mkdirOk : Bool
  camInitOk : Bool

/-- How startup ends: `halted` is the terminal blink loop of line 45
(its body has no exit), `ready` means the polling loop is entered. -/
inductive BootOutcome where
  | halted : BootOutcome
  | ready : BootOutcome
deriving DecidableEq

/-- Startup events in call order. -/
inductive BootEv where
  | serialBegin : BootEv
  | buttonPinInit : BootEv
  | ledInit : BootEv
  | sdMount (ok : Bool) : BootEv
  | makeDir (ok : Bool) : BootEv
  | camInit (ok : Bool) : BootEv
  | blinkHalt : BootEv
  | readyMsg : BootEv
deriving DecidableEq

/-- Shallow embedding of `setup()` (lines 33-50). -/
def setupRun (env : BootEnv) : BootOutcome × List BootEv :=
  let t := [BootEv.serialBegin, BootEv.buttonPinInit, BootEv.ledInit,
            BootEv.sdMount env.sdMountOk, BootEv.makeDir env.mkdirOk,
            BootEv.camInit env.camInitOk]
  if env.camInitOk then (BootOutcome.ready, t ++ [BootEv.readyMsg])
  else (BootOutcome.halted, t ++ [BootEv.blinkHalt])

/-- C8, counterexample.  With the storage mount and the directory
creation both failing but the sensor initialising, startup still reaches
the polling loop: `setup` never consults the storage outcomes, so a
storage-mount or directory-creation failure does not halt the process,
contradicting the claim that any of the three failures halts. -/
theorem setup_halt_cex :
    (setupRun ⟨false, false, true⟩).1 = BootOutcome.ready ∧
    (⟨false, false, true⟩ : BootEnv).sdMountOk = false := by
  constructor <;> rfl

/-- C8, amended.  Startup halts in the terminal blink loop — never
entering the polling loop — exactly when sensor initialisation fails;
storage-mount and directory-creation failures are not consulted and the
process proceeds to polling regardless. -/
theorem setup_halt_iff (env : BootEnv) :
    ((setupRun env).1 = BootOutcome.halted ↔ env.camInitOk = false) ∧
    ((setupRun env).1 = BootOutcome.ready ↔ env.camInitOk = true) := by
  rcases hc : env.camInitOk with _ | _ <;> simp [setupRun, hc]

/-!
## The poll loop (`loop()`, lines 53-75)

Time is in `millis()` units.  `btn t` is the sampled level at time `t`,
with `true` = pressed (the line is active-low; `LOW` maps to `true`).
A plain poll iteration advances time by one unit; `delay(5)` and
`delay(DEBOUNCE_MS)` advance it by 5 and 40; the capture call itself is
modelled as instantaneous (its duration only shifts the wait start).
-/

/-- The wait-for-release loop of lines 66-71.  From start time `t0`, at
sample time `t`: exit when the line reads released; otherwise emit one
watchdog reset, exit if more than 2000 units have elapsed, else
`delay(5)` and re-sample.  Returns the exit time and the number of
watchdog resets emitted.  The fuel only bounds the recursion; 402
iterations always suffice because the elapsed check fires at
`t0 + 2005` at the latest. -/
def waitGo (btn : Nat → Bool) (t0 : Nat) : Nat → Nat → Nat × Nat
  | 0, t => (t, 0)
  | fuel + 1, t =>
    if btn t then
      if 2000 < t - t0 then (t, 1)
      else ((waitGo btn t0 fuel (t + 5)).1, (waitGo btn t0 fuel (t + 5)).2 + 1)
    else (t, 0)

/-- The wait-for-release loop, entered at time `t0`. -/
def waitRelease (btn : Nat → Bool) (t0 : Nat) : Nat × Nat :=
  waitGo btn t0 402 t0

/-- State of `loop()` between iterations: the function-local statics
`last` (`true` = pressed) and `edge`, the current time, and the times at
which `takePhoto()` has been invoked. -/
structure LoopState where
  last : Bool
  edge : Nat
  t : Nat
  events : List Nat

/-- Initial state: `last = HIGH` (released), `edge = 0`, boot time 0. -/
def initState : LoopState := ⟨false, 0, 0, []⟩

/-- One iteration of `loop()` (lines 53-75): sample the line, record the
falling edge, and when the debounce condition `last == LOW && now == LOW
&& millis() - edge > DEBOUNCE_MS` holds, invoke `takePhoto`, wait for
release (bounded), `delay(DEBOUNCE_MS)`, and keep `last = now`. -/
def loopStep (btn : Nat → Bool) (s : LoopState) : LoopState :=
  let now := btn s.t
  let edge := if !s.last && now then s.t else s.edge
  if s.last && now && decide (DEBOUNCE_MS < s.t - edge) then
    { last := now, edge := edge, t := (waitRelease btn s.t).1 + DEBOUNCE_MS,
      events := s.events ++ [s.t] }
  else
    { last := now, edge := edge, t := s.t + 1, events := s.events }

/-- Iterating `loop()` for `n` iterations. -/
def loopRun (btn : Nat → Bool) : Nat → LoopState → LoopState
  | 0, s => s
  | n + 1, s => loopStep btn (loopRun btn n s)

/-- A single physical press: the line samples pressed exactly during
`[a, a + d)`. -/
def singlePress (a d : Nat) : Nat → Bool :=
  fun t => decide (a ≤ t ∧ t < a + d)

/-- C6, counterexample.  With the line held pressed for 5000 units after
the capture, the wait-for-release loop exits at `t0 + 2005`, not within
2000 units: the elapsed check `millis() - t0 > 2000` is strict and only
evaluated at the 5-unit sample points, so the first exiting sample is at
elapsed time 2005.  (It does emit one watchdog reset per iteration, 402
in all.) -/
theorem wait_bound_cex :
    (waitRelease (singlePress 0 5000) 0).1 = 2005 ∧
    2000 < (waitRelease (singlePress 0 5000) 0).1 ∧
    (waitRelease (singlePress 0 5000) 0).2 = 402 := by
  refine ⟨by decide, by decide, by decide⟩

/-- C6, amended.  For every line behaviour the wait-for-release loop
terminates, exiting at most `2005 = 2000 + 5` units after it starts
(the strict 2000-unit elapsed check is evaluated at 5-unit sample
points); it exits either because the line reads released or because the
elapsed bound was exceeded (never by stalling); and a watchdog reset is
emitted at least once per 5 elapsed units of waiting. -/
theorem wait_bounded (btn : Nat → Bool) (t0 : Nat) :
    (waitRelease btn t0).1 ≤ t0 + 2005 ∧
    (waitRelease btn t0).1 - t0 ≤ 5 * (waitRelease btn t0).2 ∧
    (btn (waitRelease btn t0).1 = false ∨ 2000 < (waitRelease btn t0).1 - t0) := by
  have key : ∀ fuel t, t0 ≤ t → t ≤ t0 + 2005 →
      (waitGo btn t0 fuel t).1 ≤ t0 + 2005 ∧
      (waitGo btn t0 fuel t).1 - t ≤ 5 * (waitGo btn t0 fuel t).2 ∧
      (2005 ≤ (t - t0) + 5 * fuel →
        (btn (waitGo btn t0 fuel t).1 = false ∨
          2000 < (waitGo btn t0 fuel t).1 - t0)) := by
    intro fuel
    induction fuel with
    | zero =>
      intro t h0 h1
      simp only [waitGo]
      exact ⟨h1, by omega, fun h2 => Or.inr (by omega)⟩
    | succ fuel ih =>
      intro t h0 h1
      simp only [waitGo]
      by_cases hb : btn t = true
      · rw [if_pos hb]
        by_cases hto : 2000 < t - t0
        · rw [if_pos hto]
          exact ⟨h1, by omega, fun _ => Or.inr hto⟩
        · rw [if_neg hto]
          have ht5 : t + 5 ≤ t0 + 2005 := by omega
          have hrec := ih (t + 5) (by omega) ht5
          refine ⟨hrec.1, ?_, ?_⟩
          · have := hrec.2.1
            omega
          · intro h2
            exact hrec.2.2 (by omega)
      · rw [if_neg hb]
        exact ⟨h1, by omega, fun _ => Or.inl (by simpa using hb)⟩
  simp only [waitRelease]
  have h := key 402 t0 le_rfl (by omega)
  exact ⟨h.1, h.2.1, h.2.2 (by omega)⟩

/-- Splitting a run of the poll loop. -/
theorem loopRun_add (btn : Nat → Bool) (k m : Nat) (s : LoopState) :
    loopRun btn (k + m) s = loopRun btn k (loopRun btn m s) := by
  induction k with
  | zero => simp [loopRun]
  | succ k ih => simp only [show k + 1 + m = (k + m) + 1 by omega, loopRun, ih]

/-- The loop state at the start of iteration `i` while no activation has
fired yet, for a single press starting at `a`: `last` mirrors the sample
of the previous instant, `edge` holds `a` once the falling edge was seen,
and no `takePhoto` call has happened. -/
def stateAt (a d i : Nat) : LoopState :=
  { last := decide (a ≤ i - 1 ∧ i - 1 < a + d)
    edge := if a + 1 ≤ i then a else 0
    t := i
    events := [] }

/-- Pre-fire characterisation of the poll loop on a single press: as long
as the debounce threshold cannot yet have been crossed (always, when the
press is at most 41 units; up to instant `a + 41` otherwise), the state
at iteration `i` is `stateAt a d i` and no activation has fired. -/
theorem loopRun_char (a d : Nat) (ha : 1 ≤ a) (hd : 1 ≤ d) :
    ∀ i, (d ≤ 41 ∨ i ≤ a + 41) →
      loopRun (singlePress a d) i initState = stateAt a d i := by
  intro i
  induction i with
  | zero =>
    intro _
    have h1 : ¬(a ≤ 0 - 1 ∧ 0 - 1 < a + d) := by omega
    have h2 : ¬(a + 1 ≤ 0) := by omega
    simp only [loopRun, initState, stateAt, LoopState.mk.injEq,
      decide_eq_false h1, if_neg h2]
  | succ i ih =>
    intro hcase
    have hprev : d ≤ 41 ∨ i ≤ a + 41 := by
      rcases hcase with h | h
      · exact Or.inl h
      · exact Or.inr (by omega)
    rw [loopRun, ih hprev]
    have hbound : i < a + d → i - a ≤ 40 := by
      rcases hcase with h | h <;> omega
    by_cases hnow : a ≤ i ∧ i < a + d
    · by_cases hlast : a ≤ i - 1 ∧ i - 1 < a + d
      · have h1 : a + 1 ≤ i := by omega
        have h2 : ¬(40 < i - a) := by
          have := hbound hnow.2
          omega
        simp [loopStep, stateAt, singlePress, DEBOUNCE_MS, hnow, hlast, h1,
          show a + 1 ≤ i + 1 by omega, h2, LoopState.mk.injEq]
      · have h1 : i = a := by omega
        rw [h1] at hlast ⊢
        simp [loopStep, stateAt, singlePress, DEBOUNCE_MS, hlast,
          show (0 : Nat) < d by omega, show ¬(a + 1 ≤ a) by omega,
          show a + 1 ≤ a + 1 by omega, LoopState.mk.injEq]
    · have hne : i ≠ a := by
        intro h
        exact hnow ⟨by omega, by omega⟩
      have hedge : (if a + 1 ≤ i then a else 0) = (if a + 1 ≤ i + 1 then a else 0) := by
        split_ifs <;> omega
      simp [loopStep, stateAt, singlePress, hnow, LoopState.mk.injEq, hedge]

/-- On a press of at least 42 units, iteration `a + 41` fires the single
debounced activation: the loop then sits in the wait-for-release, does
the 40-unit tail delay, and resumes with `last` still recorded pressed. -/
theorem loopRun_fire (a d : Nat) (ha : 1 ≤ a) (hd : 42 ≤ d) :
    loopRun (singlePress a d) (a + 42) initState =
      { last := true, edge := a,
        t := (waitRelease (singlePress a d) (a + 41)).1 + DEBOUNCE_MS,
        events := [a + 41] } := by
  have hstep : a + 42 = (a + 41) + 1 := by omega
  rw [hstep, loopRun, loopRun_char a d ha (by omega) (a + 41) (Or.inr le_rfl)]
  have e1 : a ≤ a + 41 - 1 ∧ a + 41 - 1 < a + d := ⟨by omega, by omega⟩
  have e2 : a ≤ a + 41 ∧ a + 41 < a + d := ⟨by omega, by omega⟩
  simp [loopStep, stateAt, singlePress, DEBOUNCE_MS, e1, e2,
    show a + 1 ≤ a + 41 by omega, show 40 < a + 41 - a by omega,
    show ¬(d ≤ 40) by omega, show 40 < d by omega, show 41 < d by omega,
    LoopState.mk.injEq]

/-- If the press ends within the wait-for-release bound, the wait exits
at or after the release instant `a + d` (never early). -/
theorem waitRelease_exits (a d : Nat) (hd2 : d ≤ 2041) :
    a + d ≤ (waitRelease (singlePress a d) (a + 41)).1 := by
  have key : ∀ fuel t, a + 41 ≤ t → a + d ≤ t + 5 * fuel →
      a + d ≤ (waitGo (singlePress a d) (a + 41) fuel t).1 := by
    intro fuel
    induction fuel with
    | zero =>
      intro t h0 h1
      simpa [waitGo] using h1
    | succ fuel ih =>
      intro t h0 h1
      simp only [waitGo]
      by_cases hb : singlePress a d t = true
      · have hb' : a ≤ t ∧ t < a + d := by simpa [singlePress] using hb
        have hno : ¬(2000 < t - (a + 41)) := by omega
        rw [if_pos hb, if_neg hno]
        exact ih (t + 5) (by omega) (by omega)
      · have hb' : ¬(a ≤ t ∧ t < a + d) := by simpa [singlePress] using hb
        rw [if_neg hb]
        omega
  exact key 402 (a + 41) le_rfl (by omega)

/-- Once the current time is past the end of the press, the line always
samples released, so no further activation ever fires. -/
theorem loopRun_post (a d : Nat) :
    ∀ (k : Nat) (s : LoopState), a + d ≤ s.t →
      (loopRun (singlePress a d) k s).events = s.events ∧
      a + d ≤ (loopRun (singlePress a d) k s).t := by
  intro k
  induction k with
  | zero =>
    intro s hs
    exact ⟨rfl, hs⟩
  | succ k ih =>
    intro s hs
    obtain ⟨he, ht⟩ := ih s hs
    have hb : singlePress a d (loopRun (singlePress a d) k s).t = false := by
      simp only [singlePress, decide_eq_false_iff_not]
      omega
    rw [loopRun]
    simp [loopStep, hb, he]
    omega

/-- Presses of 41 units or less never fire (`loopRun_char` everywhere). -/
theorem debounce_none (a d : Nat) (ha : 1 ≤ a) (hd1 : 1 ≤ d) (hd41 : d ≤ 41)
    (n : Nat) : (loopRun (singlePress a d) n initState).events = [] := by
  rw [loopRun_char a d ha hd1 n (Or.inl hd41)]
  rfl

/-- A press of 42 to 2000 units fires exactly once, at instant `a + 41`,
and never again after the loop resumes. -/
theorem debounce_once (a d : Nat) (ha : 1 ≤ a) (hd42 : 42 ≤ d)
    (hd2000 : d ≤ 2000) (n : Nat) (hn : a + 42 ≤ n) :
    (loopRun (singlePress a d) n initState).events = [a + 41] := by
  have hsplit : n = (n - (a + 42)) + (a + 42) := by omega
  rw [hsplit, loopRun_add, loopRun_fire a d ha hd42]
  have hte := waitRelease_exits a d (by omega)
  exact (loopRun_post a d (n - (a + 42)) _ (by simp [DEBOUNCE_MS]; omega)).1

/-- At every point of the run of a 42-to-2000-unit press, at most one
activation has fired. -/
theorem debounce_at_most_one (a d : Nat) (ha : 1 ≤ a) (hd42 : 42 ≤ d)
    (hd2000 : d ≤ 2000) (n : Nat) :
    (loopRun (singlePress a d) n initState).events.length ≤ 1 := by
  rcases le_or_lt n (a + 41) with h | h
  · rw [loopRun_char a d ha (by omega) n (Or.inr h)]
    simp [stateAt]
  · rw [debounce_once a d ha hd42 hd2000 n (by omega)]
    simp

/-- C3, counterexample.  Two concrete presses refute the claim.  (i) A
press held exactly `DEBOUNCE_MS = 40` units (`[10, 50)`) fires zero
activations, though the claim demands exactly one for any duration
`≥ 40`: the sketch fires on a pressed sample strictly later than
`edge + 40`, and the earliest such instant, `edge + 41`, is already
released.  (ii) During the single uninterrupted press `[10, 5010)` the
loop fires activations at t = 51 and again at t = 2096: after the
wait-for-release times out at 2000 units with the line still held, the
debounce condition is immediately true again, so a press outliving the
wait bound double-fires — contradicting "no further activation fires
while the line remains pressed". -/
theorem debounce_claim_cex :
    (loopRun (singlePress 10 40) 120 initState).events = [] ∧
    (loopRun (singlePress 10 5000) 53 initState).events = [51, 2096] ∧
    singlePress 10 5000 51 = true ∧ singlePress 10 5000 2096 = true := by
  exact ⟨by decide, by decide, by decide, by decide⟩

/-- C3, amended.  For a single physical press of duration `d` starting at
`a ≥ 1` (one time-unit per poll sample): if `d ≤ DEBOUNCE_MS + 1 = 41`
the press fires zero activations (in particular every press shorter than
`DEBOUNCE_MS` fires zero, as claimed); if `42 ≤ d` and the press ends
within the wait-for-release bound (`d ≤ 2000`), exactly one activation
fires — at instant `a + 41`, never more than one at any point of the
run, and none again while the line stays pressed or after release.
(For presses outliving the 2000-unit wait bound the loop re-fires — see
the counterexample — so the one-activation guarantee needs the
release-before-timeout proviso.) -/
theorem debounce_single_press (a d : Nat) (ha : 1 ≤ a) :
    (1 ≤ d → d ≤ 41 → ∀ n, (loopRun (singlePress a d) n initState).events = []) ∧
    (42 ≤ d → d ≤ 2000 → ∀ n,
      (loopRun (singlePress a d) n initState).events.length ≤ 1) ∧
    (42 ≤ d → d ≤ 2000 → ∀ n, a + 42 ≤ n →
      (loopRun (singlePress a d) n initState).events = [a + 41]) :=
  ⟨fun hd1 hd41 n => debounce_none a d ha hd1 hd41 n,
   fun hd42 hd2000 n => debounce_at_most_one a d ha hd42 hd2000 n,
   fun hd42 hd2000 n hn => debounce_once a d ha hd42 hd2000 n hn⟩

/-- Witness for `debounce_single_press`: a press of 50 units starting at
instant 1 fires exactly the one activation, at instant 42. -/
theorem debounce_single_press_app :
    (loopRun (singlePress 1 50) 43 initState).events = [42] :=
  (debounce_single_press 1 50 (by decide)).2.2 (by decide) (by decide) 43
    (by decide)

/-!
## Filename uniqueness (lines 83-85) across one session
-/

/-- Value of a digit character rendered by `digitChr`. -/
def digitVal : Char → Nat
  | '0' => 0 | '1' => 1 | '2' => 2 | '3' => 3 | '4' => 4
  | '5' => 5 | '6' => 6 | '7' => 7 | '8' => 8 | _ => 9

/-- Recombining a most-significant-first digit list. -/
def ofDigs (l : List Nat) : Nat := l.foldl (fun acc d => acc * 10 + d) 0

theorem ofDigs_append (l : List Nat) (d : Nat) :
    ofDigs (l ++ [d]) = ofDigs l * 10 + d := by
  simp [ofDigs, List.foldl_append]

theorem ofDigs_natDigsAux (fuel : Nat) :
    ∀ n, n ≤ fuel → ofDigs (natDigsAux fuel n) = n := by
  induction fuel with
  | zero =>
    intro n hn
    interval_cases n
    rfl
  | succ fuel ih =>
    intro n hn
    match n with
    | 0 => rfl
    | m + 1 =>
      rw [natDigsAux, ofDigs_append, ih ((m + 1) / 10) (by omega)]
      omega

theorem ofDigs_natDigs (n : Nat) : ofDigs (natDigs n) = n :=
  ofDigs_natDigsAux n n le_rfl

theorem natDigsAux_lt_ten (fuel : Nat) :
    ∀ n d, d ∈ natDigsAux fuel n → d < 10 := by
  induction fuel with
  | zero =>
    intro n d hd
    simp [natDigsAux] at hd
  | succ fuel ih =>
    intro n d hd
    match n with
    | 0 => simp [natDigsAux] at hd
    | m + 1 =>
      rw [natDigsAux] at hd
      rcases List.mem_append.mp hd with h | h
      · exact ih _ _ h
      · simp at h
        omega

theorem digitVal_digitChr (d : Nat) (hd : d < 10) : digitVal (digitChr d) = d := by
  interval_cases d <;> rfl

theorem digitChr_ne_hyphen (d : Nat) (hd : d < 10) : digitChr d ≠ '-' := by
  interval_cases d <;> decide

/-- Injectivity of `natChars`: the rendered digits recombine to `n`. -/
theorem natChars_inj (m n : Nat) (h : natChars m = natChars n) : m = n := by
  have key : ∀ k, ofDigs (((natChars k).map digitVal)) = if k = 0 then 0 else k := by
    intro k
    by_cases hk : k = 0
    · simp [natChars, hk, ofDigs, digitVal]
    · rw [natChars, if_neg hk, if_neg hk, List.map_map]
      have hmap : (natDigs k).map (digitVal ∘ digitChr) = natDigs k := by
        calc (natDigs k).map (digitVal ∘ digitChr)
            = (natDigs k).map id :=
              List.map_congr_left
                (fun d hd => digitVal_digitChr d (natDigsAux_lt_ten k k d hd))
          _ = natDigs k := List.map_id _
      rw [hmap, ofDigs_natDigs]
  have h2 := key m
  rw [h, key n] at h2
  split_ifs at h2 <;> omega

/-- A `natChars` rendering never starts with the minus sign. -/
theorem natChars_head_ne_hyphen (n : Nat) (cs : List Char) :
    natChars n ≠ '-' :: cs := by
  by_cases hn : n = 0
  · simp [natChars, hn]
  · rw [natChars, if_neg hn]
    match hD : natDigs n with
    | [] =>
      have := ofDigs_natDigs n
      rw [hD] at this
      simp [ofDigs] at this
      omega
    | d :: ds =>
      have hd10 : d < 10 := natDigsAux_lt_ten n n d (by rw [show natDigsAux n n = natDigs n from rfl, hD]; simp)
      simp only [List.map_cons]
      intro h
      exact digitChr_ne_hyphen d hd10 (by injection h)

/-- Injectivity of `intChars`: sign plus `natChars` determine the `int`. -/
theorem intChars_inj (i j : Int) (h : intChars i = intChars j) : i = j := by
  by_cases hi : i < 0 <;> by_cases hj : j < 0
  · rw [intChars, if_pos hi, intChars, if_pos hj] at h
    have := natChars_inj i.natAbs j.natAbs (by injection h)
    omega
  · rw [intChars, if_pos hi, intChars, if_neg hj] at h
    exact absurd h.symm (natChars_head_ne_hyphen j.toNat _)
  · rw [intChars, if_neg hi, intChars, if_pos hj] at h
    exact absurd h (natChars_head_ne_hyphen i.toNat _)
  · rw [intChars, if_neg hi, intChars, if_neg hj] at h
    have := natChars_inj i.toNat j.toNat h
    omega

/-- The derived target path determines the sequence index. -/
theorem pathOf_inj (i j : Int) (h : pathOf i = pathOf j) : i = j := by
  apply intChars_inj
  have hdata : "/camera/".data ++ intChars i ++ ".jpg".data =
      "/camera/".data ++ intChars j ++ ".jpg".data := by
    have := congrArg String.data h
    simpa [pathOf] using this
  rw [List.append_assoc, List.append_assoc] at hdata
  have h2 := List.append_cancel_left hdata
  exact List.append_cancel_right h2

/-- Per-capture inputs to the index derivation: whether the
`readFileNum` count query succeeds, and the `millis()` value read if the
fallback of line 84 is taken. -/
structure CapStep where
  queryOk : Bool
  clock : Nat

/-- Sequence of filename indices over consecutive successful captures in
one session (lines 83-84 per capture).  Modelled from the spec: the
`readFileNum` helper lives in `sd_read_write.h`, a repository file not
under `src/`; per the spec it is the storage capability's "count existing
entries in directory" query, and each successful capture adds one entry
to the directory, so a successful query during capture `k` returns
`n0 + k` where `n0` is the directory's initial entry count.  A failed
query (negative return) falls back to the `int`-converted clock. -/
def sessionIdxs (n0 : Nat) : List CapStep → List Int
  | [] => []
  | c :: cs =>
    (if c.queryOk then (n0 : Int) else intOfUInt32 c.clock) ::
      sessionIdxs (n0 + 1) cs

/-- C5, counterexample.  Two consecutive successful captures in one
session collide when the first uses the count query (directory holds 50
entries, index 50) and the second falls back to the clock with
`millis() = 50`: both derive index 50 and the same target path
`/camera/50.jpg`, so mixed query/fallback executions are not pairwise
distinct. -/
theorem session_distinct_cex :
    sessionIdxs 50 [⟨true, 0⟩, ⟨false, 50⟩] = [50, 50] ∧
    (sessionIdxs 50 [⟨true, 0⟩, ⟨false, 50⟩]).map pathOf =
      ["/camera/50.jpg", "/camera/50.jpg"] ∧
    ¬ List.Pairwise (fun p q => p ≠ q)
        ((sessionIdxs 50 [⟨true, 0⟩, ⟨false, 50⟩]).map pathOf) := by
  exact ⟨by decide, by decide, by decide⟩

/-- Injectivity of `intOfUInt32` below `2^32`. -/
theorem intOfUInt32_inj (a b : Nat) (ha : a < 4294967296) (hb : b < 4294967296)
    (h : intOfUInt32 a = intOfUInt32 b) : a = b := by
  rw [intOfUInt32, intOfUInt32, Nat.mod_eq_of_lt ha, Nat.mod_eq_of_lt hb] at h
  split_ifs at h <;> omega

/-- Indices of an all-query-success session are bounded below by the
starting count. -/
theorem sessionIdxs_lower (cs : List CapStep) :
    ∀ n0, (∀ c ∈ cs, c.queryOk = true) →
      ∀ x ∈ sessionIdxs n0 cs, (n0 : Int) ≤ x := by
  induction cs with
  | nil =>
    intro n0 _ x hx
    simp [sessionIdxs] at hx
  | cons c cs ih =>
    intro n0 hq x hx
    rw [sessionIdxs, if_pos (hq c (by simp))] at hx
    rcases List.mem_cons.mp hx with h | h
    · omega
    · have := ih (n0 + 1) (fun c' hc' => hq c' (by simp [hc'])) x h
      omega

/-- C5, amended.  Sequence indices (and hence the derived paths, which
embed the decimal index) are pairwise distinct across any number of
consecutive successful captures in a session, provided the captures are
homogeneous: all via the count query (the count grows by one per
capture), or all via the clock fallback with strictly increasing clock
readings below `2^32`.  Mixed executions can collide (see the
counterexample), because a clock reading can equal a count-derived
index. -/
theorem session_distinct (n0 : Nat) (cs : List CapStep) :
    ((∀ c ∈ cs, c.queryOk = true) →
      List.Pairwise (fun p q => p ≠ q) ((sessionIdxs n0 cs).map pathOf)) ∧
    ((∀ c ∈ cs, c.queryOk = false) →
      List.Pairwise (fun c c' => c.clock < c'.clock) cs →
      (∀ c ∈ cs, c.clock < 4294967296) →
      List.Pairwise (fun p q => p ≠ q) ((sessionIdxs n0 cs).map pathOf)) := by
  constructor
  · intro hq
    have hlt : List.Pairwise (fun x y => x ≠ y) (sessionIdxs n0 cs) := by
      induction cs generalizing n0 with
      | nil => simp [sessionIdxs]
      | cons c cs ih =>
        rw [sessionIdxs, if_pos (hq c (by simp))]
        refine List.Pairwise.cons ?_ (ih (n0 + 1) (fun c' hc' => hq c' (by simp [hc'])))
        intro x hx
        have := sessionIdxs_lower cs (n0 + 1)
          (fun c' hc' => hq c' (by simp [hc'])) x hx
        omega
    rw [List.pairwise_map]
    exact hlt.imp_of_mem (fun hx hy hne heq => hne (pathOf_inj _ _ heq))
  · intro hq hmono hbound
    have hflat : sessionIdxs n0 cs = cs.map (fun c => intOfUInt32 c.clock) := by
      induction cs generalizing n0 with
      | nil => simp [sessionIdxs]
      | cons c cs ih =>
        rw [sessionIdxs, if_neg (by simp [hq c (by simp)]), List.map_cons,
          ih (n0 + 1) (fun c' hc' => hq c' (by simp [hc'])) hmono.of_cons
          (fun c' hc' => hbound c' (by simp [hc']))]
    rw [hflat, List.map_map, List.pairwise_map]
    refine hmono.imp_of_mem ?_
    intro c c' hc hc' hlt heq
    have := intOfUInt32_inj c.clock c'.clock (hbound c hc) (hbound c' hc')
      (pathOf_inj _ _ heq)
    omega

/-- Witness for `session_distinct`: three all-query captures starting
from an empty directory yield the distinct paths 0, 1, 2. -/
theorem session_distinct_app :
    List.Pairwise (fun p q => p ≠ q)
      ((sessionIdxs 0 [⟨true, 0⟩, ⟨true, 0⟩, ⟨true, 0⟩]).map pathOf) :=
  (session_distinct 0 [⟨true, 0⟩, ⟨true, 0⟩, ⟨true, 0⟩]).1 (by decide)

end Photo
